import Mathlib

/-!
# Verification of the playwright-frappe-ts component layer

A shallow embedding of the pure/stateful logic of the repository
`christpg03/playwright-frappe-ts`, faithful to the TypeScript sources:

* `src/src/helpers/utils.ts` — `cleanUrl`, `toLowerSnakeCase`;
* `src/src/helpers/errors.ts` — the error taxonomy (errors are modelled as
  values carrying the exact message strings the constructors build);
* `src/src/components/abstracts/SelectComponent.ts` — `getOptions`,
  `getSelectedValue`, `selectValue`, and `EnableableComponent.throwIfDisabled`;
* `src/src/components/abstracts/InputComponent.ts` — `fill`, `clear`,
  `getValue`, and `BaseComponent`'s `locatorString` accessor pair.

Modelling conventions:

* A TypeScript `Record<string, string>` built by repeated `obj[k] = v`
  assignments is embedded as an insertion-ordered association list
  (`RecordSS`); assignment to an existing key updates its value in place.
  `Object.keys` follows the JavaScript own-property enumeration order:
  canonical array-index keys first, in ascending numeric order, then the
  remaining string keys in insertion order.
* JavaScript runtime values, as far as this layer inspects them
  (`typeof` checks, `=== undefined`, `=== null`, truthiness), are embedded
  as the inductive `JsValue`.  Numbers are embedded as `JsNumber`: an
  integer, a non-integer finite number (carried as its floor together with
  its decimal rendering, enough to decide the comparisons and the
  array-indexing `selectValue` performs on it), or `NaN`.  Infinities are
  outside the model; they would always fail the range check like any other
  out-of-range number.
* Interactions with the Playwright element reference (clicks, fills) are
  recorded as an explicit trace of `Interaction` values; DOM reads performed
  by option enumeration are modelled by giving the component state the list
  of its `option` sub-elements in document order.
* `Math.random()`-driven choice is embedded as an oracle parameter
  `rnd : Nat` reduced modulo the number of options; `Math.floor(r * n)` for
  `r ∈ [0,1)` ranges over exactly the residues `rnd % n`.
* Asynchrony is irrelevant to the verified properties: each method is a
  function from the pre-state to a trace, an optional error (thrown
  exception) and the post-state.
-/

/-- A JavaScript number, as far as `selectValue` inspects one: it compares
the number with `0` and with the (integer) option count, renders it into
an error message, and uses it as an array index.  A non-integer finite
number is carried as its floor `f` (which determines both comparisons
with integers: `x < m ↔ f < m` and `x ≥ m ↔ f ≥ m` for every integer `m`
when `f < x < f + 1`) together with its decimal rendering `s` (used only
in error messages).  All comparisons on `NaN` are false. -/
inductive JsNumber where
  | int (n : Int) : JsNumber
  | nonint (f : Int) (s : String) : JsNumber
  | nan : JsNumber
deriving DecidableEq, Repr

/-- `x < 0` on a JavaScript number. -/
def JsNumber.ltZero : JsNumber → Bool
  | .int n => n < 0
  | .nonint f _ => f < 0
  | .nan => false

/-- `x >= m` on a JavaScript number, for an integer `m`. -/
def JsNumber.geInt (x : JsNumber) (m : Int) : Bool :=
  match x with
  | .int n => m ≤ n
  | .nonint f _ => m ≤ f
  | .nan => false

/-- Template-literal rendering `${x}` of a JavaScript number. -/
def JsNumber.display : JsNumber → String
  | .int n => toString n
  | .nonint _ s => s
  | .nan => "NaN"

/-- JavaScript array indexing `l[x]` with a number `x`: an element is
returned exactly when `x` is an integer in `[0, l.length)`; any negative,
fractional or `NaN` index reads an absent property and yields `undefined`
(`none`). -/
def jsIndex (l : List String) : JsNumber → Option String
  | .int n => if n < 0 then none else l[n.toNat]?
  | .nonint _ _ => none
  | .nan => none

/-- JavaScript runtime values as far as the component layer inspects them:
`selectValue` branches on `=== undefined`, `=== null`, `typeof`, and the
`locatorString` setter checks `typeof value !== 'string'`. -/
inductive JsValue where
  | undef : JsValue
  | null : JsValue
  | str (s : String) : JsValue
  | num (n : JsNumber) : JsValue
  | bool (b : Bool) : JsValue
  | object : JsValue
deriving DecidableEq, Repr

/-- The JavaScript `typeof` operator on the embedded values
(`typeof null` is `"object"`). -/
def JsValue.typeOf : JsValue → String
  | .undef => "undefined"
  | .null => "object"
  | .str _ => "string"
  | .num _ => "number"
  | .bool _ => "boolean"
  | .object => "object"

/-- Template-literal conversion `${value}` of an embedded value to a string,
as used when a non-string reaches `new InvalidLocatorError(value, ...)`. -/
def JsValue.display : JsValue → String
  | .undef => "undefined"
  | .null => "null"
  | .str s => s
  | .num n => n.display
  | .bool b => if b then "true" else "false"
  | .object => "[object Object]"

/-- The error taxonomy of `src/src/helpers/errors.ts`, as data.  Each
constructor stores the arguments its TypeScript counterpart receives; the
message the TypeScript constructor would build is `PWError.message`. -/
inductive PWError where
  | emptyProperty (propertyName : String) (componentName : String) : PWError
  | componentHierarchy (componentName : String) (operation : String) : PWError
  | invalidLocator (locatorString : String) (reason : String) : PWError
  | locatorImmutability (componentName currentValue attemptedValue : String) : PWError
  | componentDisabled (componentName : String) (action : String) : PWError
  | selection (componentName : String) (operation : String) (details : String) : PWError
deriving DecidableEq, Repr

/-- The message string each error constructor in `errors.ts` builds. -/
def PWError.message : PWError → String
  | .emptyProperty p c =>
      "Property \"" ++ p ++ "\" in component \"" ++ c ++ "\" cannot be empty or undefined."
  | .componentHierarchy c op =>
      "Cannot " ++ op ++ " for component \"" ++ c ++ "\": This component has no parent."
  | .invalidLocator l r => "Invalid locator string \"" ++ l ++ "\": " ++ r
  | .locatorImmutability c cur att =>
      "Cannot modify locator string in component \"" ++ c ++ "\". " ++
        "Current value: \"" ++ cur ++ "\", attempted value: \"" ++ att ++ "\". " ++
        "Locator strings are immutable once set."
  | .componentDisabled c a =>
      "Cannot perform action \"" ++ a ++ "\": Component \"" ++ c ++ "\" is disabled."
  | .selection c op d =>
      "Selection failed in component \"" ++ c ++ "\" during " ++ op ++ ": " ++ d

/-- `SelectionError.noOptionsAvailable` (errors.ts line 140). -/
def SelectionError.noOptionsAvailable (componentName : String) : PWError :=
  .selection componentName "option selection" "No options available to select"

/-- `SelectionError.optionKeyNotFound` (errors.ts line 151): the details
enumerate every available key, joined with a comma. -/
def SelectionError.optionKeyNotFound (componentName : String) (key : String)
    (availableKeys : List String) : PWError :=
  .selection componentName "key selection"
    ("Option with key \"" ++ key ++ "\" not found. Available keys: " ++
      String.intercalate ", " availableKeys)

/-- `SelectionError.indexOutOfRange` (errors.ts line 170): the details cite
the valid index range `0-maxIndex`; the offending index (a JavaScript
number) is interpolated via its rendering. -/
def SelectionError.indexOutOfRange (componentName : String) (index : JsNumber)
    (maxIndex : Int) : PWError :=
  .selection componentName "index selection"
    ("Option index " ++ index.display ++ " is out of range. Available indices: 0-" ++
      toString maxIndex)

/-- `SelectionError.invalidValueType` (errors.ts line 184). -/
def SelectionError.invalidValueType (componentName : String)
    (receivedType : String) : PWError :=
  .selection componentName "value validation"
    ("Value must be a string (key), number (index), or undefined (random). Received: " ++
      receivedType)

/-- `SelectionError.originalValueNotFound` (errors.ts line 198). -/
def SelectionError.originalValueNotFound (componentName : String)
    (targetKey : String) : PWError :=
  .selection componentName "value resolution"
    ("Could not find original value for key \"" ++ targetKey ++ "\"")

/-! ## String utilities (`src/src/helpers/utils.ts`) -/

/-- The characters the regex class `\s` matches in the inputs of interest
(ASCII whitespace). -/
def isJsWhitespace (c : Char) : Bool :=
  c == ' ' || c == '\t' || c == '\n' || c == '\r'

/-- JavaScript `String.prototype.trim()` on the inputs of interest: drop
whitespace from both ends. -/
def jsTrim (s : String) : String :=
  String.mk (((s.data.dropWhile isJsWhitespace).reverse.dropWhile isJsWhitespace).reverse)

/-- One step of a right fold that replaces each maximal run of characters
satisfying `p` with the single character `r` (a global regex replace of
`p+` by `r`).  The Boolean component records whether the character to the
right begins inside a run. -/
def collapseStep (p : Char → Bool) (r : Char) (c : Char)
    (acc : List Char × Bool) : List Char × Bool :=
  if p c then (if acc.2 then acc.1 else r :: acc.1, true)
  else (c :: acc.1, false)

/-- Replace each maximal run of characters satisfying `p` with `r`
(embeds `.replace(/p+/g, r)`). -/
def collapseRuns (p : Char → Bool) (r : Char) (l : List Char) : List Char :=
  (l.foldr (collapseStep p r) ([], false)).1

/-- Embeds `.replace(/[A-Z]/g, (letter) => '_' + letter.toLowerCase())`:
each ASCII uppercase letter becomes an underscore followed by its
lowercase form. -/
def expandUpper (l : List Char) : List Char :=
  l.foldr (fun c acc => (if c.isUpper then ['_', c.toLower] else [c]) ++ acc) []

/-- Embeds `.replace(/^_/, '')`: removes a single leading underscore. -/
def stripLeadingUnderscore : List Char → List Char
  | '_' :: rest => rest
  | l => l

/-- `toLowerSnakeCase` (utils.ts lines 40-47): replace whitespace runs with
underscores, expand each uppercase letter to `_` + lowercase, drop one
leading underscore, collapse underscore runs, lowercase everything. -/
def toLowerSnakeCase (s : String) : String :=
  String.mk
    (((collapseRuns (fun c => c == '_') '_'
        (stripLeadingUnderscore
          (expandUpper
            (collapseRuns isJsWhitespace '_' s.data)))).map Char.toLower))

/-- The four-character literal sequence `\x3a` that `cleanUrl`'s regex
`/\\x3a/g` matches. -/
def x3aPat : List Char := ['\\', 'x', '3', 'a']

/-- Embeds `url.replace(/\\x3a/g, ':')`: a left-to-right, non-overlapping
replacement of each occurrence of the literal sequence `\x3a` by `:`. -/
def replaceX3a : List Char → List Char
  | '\\' :: 'x' :: '3' :: 'a' :: rest => ':' :: replaceX3a rest
  | c :: rest => c :: replaceX3a rest
  | [] => []

/-- `cleanUrl` (utils.ts lines 17-19): the empty string is the only falsy
string, so `url ? url.replace(/\\x3a/g, ':') : ''` returns `""` on `""`
and the replacement otherwise. -/
def cleanUrl (url : String) : String :=
  if url == "" then "" else String.mk (replaceX3a url.data)

/-- Does the character list start with the literal sequence `\x3a`? -/
def startsWithX3a : List Char → Bool
  | '\\' :: 'x' :: '3' :: 'a' :: _ => true
  | _ => false

/-- Does the character list contain the literal sequence `\x3a` anywhere? -/
def hasX3a : List Char → Bool
  | [] => false
  | c :: rest => startsWithX3a (c :: rest) || hasX3a rest

/-! ## Ordered records (TypeScript `Record<string, string>` built by assignment) -/

/-- An insertion-ordered association list embedding a `Record<string, string>`
that is built by repeated `obj[key] = value` assignments. -/
abbrev RecordSS := List (String × String)

/-- The assignment `obj[k] = v`: updates the value in place when the key is
already present (keeping its position), otherwise appends the new pair. -/
def recordSet (r : RecordSS) (k v : String) : RecordSS :=
  if r.any (fun p => p.1 == k) then
    r.map (fun p => if p.1 == k then (k, v) else p)
  else r ++ [(k, v)]

/-- The member read `obj[k]`: the value of the first (only) pair with key
`k`, or `none` when absent (JavaScript `undefined`). -/
def recordGet (r : RecordSS) (k : String) : Option String :=
  (r.find? (fun p => p.1 == k)).map Prod.snd

/-- The numeric value of a digit string (most significant digit first). -/
def decValue (l : List Char) : Nat :=
  l.foldl (fun a c => a * 10 + (c.toNat - 48)) 0

/-- Is the string a canonical array-index property key, i.e. the canonical
decimal rendering (no sign, no leading zero) of an integer below
`2^32 - 1`?  JavaScript enumerates such own keys before all others. -/
def isCanonicalIndex (s : String) : Bool :=
  !s.data.isEmpty && s.data.all (fun c => c.isDigit) &&
    (s == "0" || s.data.headD '0' != '0') && decValue s.data < 4294967295

/-- Insert a key into a list sorted by ascending numeric value. -/
def insertByValue (k : String) : List String → List String
  | [] => [k]
  | a :: l => if decValue k.data ≤ decValue a.data then k :: a :: l else a :: insertByValue k l

/-- Sort a list of (canonical-index) keys by ascending numeric value. -/
def sortByValue : List String → List String
  | [] => []
  | a :: l => insertByValue a (sortByValue l)

/-- `Object.keys(obj)` in the JavaScript own-property enumeration order:
canonical array-index keys first, in ascending numeric order, then the
remaining string keys in insertion order. -/
def objectKeys (r : RecordSS) : List String :=
  sortByValue ((r.map Prod.fst).filter isCanonicalIndex) ++
    (r.map Prod.fst).filter (fun k => !isCanonicalIndex k)

/-! ## Select component (`src/src/components/abstracts/SelectComponent.ts`) -/

/-- One `option` sub-element of the select, as the enumeration in
`getOptions` reads it: its `value` attribute (a missing attribute is
coalesced to `""` by `|| ''`) and its text content (likewise). -/
structure OptionElement where
  value : String
  text : String
deriving DecidableEq, Repr

/-- The loop body of `getOptions` (SelectComponent.ts lines 60-70) applied to
the option elements in document order: skip any option whose value or text
is empty or whitespace-only, otherwise assign
`options[toLowerSnakeCase(value)] = text`. -/
def computeOptions (optionElements : List OptionElement) : RecordSS :=
  optionElements.foldl
    (fun options o =>
      if jsTrim o.value != "" && jsTrim o.text != "" then
        recordSet options (toLowerSnakeCase o.value) o.text
      else options) []

/-- The state of a `SelectComponent` instance: its constructor name (used in
error messages), the `option` sub-elements of its element reference in
document order, the current raw input value, the `enabled` flag, and the
`_options` cache. -/
structure SelectComponent where
  name : String
  dom : List OptionElement
  inputValue : String
  enabled : Bool
  optionsCache : Option RecordSS
deriving DecidableEq, Repr

/-- An interaction performed on the underlying element reference. -/
inductive Interaction where
  | clickSelf : Interaction
  | clickOptionWithText (text : String) : Interaction
  | fillSelf (value : String) : Interaction
deriving DecidableEq, Repr

/-- The outcome of one method call: the interactions performed on the
element reference in order, the thrown error if any, and the post-state. -/
structure MethodResult (σ : Type) where
  trace : List Interaction
  error : Option PWError
  state : σ
deriving DecidableEq, Repr

/-- `EnableableComponent.throwIfDisabled` (SelectComponent.ts source, lines
230-235 of the file): produces a `ComponentDisabledError` exactly when the
component is disabled. -/
def throwIfDisabled (enabled : Bool) (componentName : String)
    (action : String) : Option PWError :=
  if !enabled then some (.componentDisabled componentName action) else none

/-- `SelectComponent.getOptions` (lines 54-75): on a cache miss, enumerate
the option elements, filter and normalize them, and cache the mapping; on a
hit, return the cached mapping unchanged.  The `Option PWError` component
records a thrown error; this method has no throw statement (in particular
it never calls `throwIfDisabled`), so it is always `none`. -/
def SelectComponent.getOptions (c : SelectComponent) :
    RecordSS × Option PWError × SelectComponent :=
  match c.optionsCache with
  | some o => (o, none, c)
  | none =>
    let o := computeOptions c.dom
    (o, none, { c with optionsCache := some o })

/-- `SelectComponent.getSelectedValue` (lines 88-90): reads
`locator.inputValue()`; no throw statement. -/
def SelectComponent.getSelectedValue (c : SelectComponent) :
    String × Option PWError :=
  (c.inputValue, none)

/-- Rendering of a string-or-undefined JavaScript value into a template
literal, as `originalValueNotFound` receives the target key. -/
def jsStrDisplay : Option String → String
  | some s => s
  | none => "undefined"

/-- `Object.entries(options).find(([key]) => key === targetKey)?.[1]`
(SelectComponent.ts line 156): when `targetKey` is `undefined` (`none`) no
string key compares `===`-equal to it, so the lookup yields `undefined`. -/
def jsEntriesFind (r : RecordSS) : Option String → Option String
  | some k => recordGet r k
  | none => none

/-- Step 5 of `selectValue` (lines 133-153): resolve the target key from the
argument.  `undefined` and `null` pick a pseudo-random key (`Math.floor
(Math.random() * n)` embedded as the integer index `rnd % n`); a string
must be a truthy member of the options record; a number is range-checked
with `value < 0 || value >= n` and then used as an array index — a
fractional or `NaN` number passes the range check and indexes to
`undefined` (`none`); anything else is an invalid value type. -/
def resolveTargetKey (name : String) (options : RecordSS) (value : JsValue)
    (rnd : Nat) : Except PWError (Option String) :=
  let optionKeys := objectKeys options
  match value with
  | .undef => .ok (jsIndex optionKeys (.int ((rnd % optionKeys.length : Nat) : Int)))
  | .null => .ok (jsIndex optionKeys (.int ((rnd % optionKeys.length : Nat) : Int)))
  | .str s =>
    match recordGet options s with
    | some t =>
      if t == "" then .error (SelectionError.optionKeyNotFound name s optionKeys)
      else .ok (some s)
    | none => .error (SelectionError.optionKeyNotFound name s optionKeys)
  | .num i =>
    if i.ltZero || i.geInt (optionKeys.length : Int) then
      .error (SelectionError.indexOutOfRange name i ((optionKeys.length : Int) - 1))
    else .ok (jsIndex optionKeys i)
  | v => .error (SelectionError.invalidValueType name v.typeOf)

/-- `SelectComponent.selectValue` (lines 119-165): guard the enabled flag,
click the select, resolve the (possibly cached) options, fail when there
are none, resolve the target key (step 5), look the display text up again
via `Object.entries(...).find(...)` with a defensive truthiness check, and
click the option filtered by that text. -/
def SelectComponent.selectValue (c : SelectComponent) (value : JsValue)
    (rnd : Nat) : MethodResult SelectComponent :=
  match throwIfDisabled c.enabled c.name "selectValue" with
  | some e => ⟨[], some e, c⟩
  | none =>
    let res := c.getOptions
    let options := res.1
    let c1 := res.2.2
    let optionKeys := objectKeys options
    if optionKeys.length = 0 then
      ⟨[.clickSelf], some (SelectionError.noOptionsAvailable c.name), c1⟩
    else
      match resolveTargetKey c.name options value rnd with
      | .error e => ⟨[.clickSelf], some e, c1⟩
      | .ok targetKey =>
        match jsEntriesFind options targetKey with
        | none =>
          ⟨[.clickSelf],
            some (SelectionError.originalValueNotFound c.name (jsStrDisplay targetKey)), c1⟩
        | some originalValue =>
          if originalValue == "" then
            ⟨[.clickSelf],
              some (SelectionError.originalValueNotFound c.name (jsStrDisplay targetKey)), c1⟩
          else
            ⟨[.clickSelf, .clickOptionWithText originalValue], none, c1⟩

/-! ## Input component (`src/src/components/abstracts/InputComponent.ts`) -/

/-- The state of an `InputComponent` instance: constructor name, the current
value of the underlying input element, and the `enabled` flag. -/
structure InputComponent where
  name : String
  currentValue : String
  enabled : Bool
deriving DecidableEq, Repr

/-- `InputComponent.fill` (lines 58-61): guard the enabled flag, then
`locator.fill(value)`. -/
def InputComponent.fill (c : InputComponent) (value : String) :
    MethodResult InputComponent :=
  match throwIfDisabled c.enabled c.name "fill" with
  | some e => ⟨[], some e, c⟩
  | none => ⟨[.fillSelf value], none, { c with currentValue := value }⟩

/-- `InputComponent.clear` (lines 72-75): guard the enabled flag, then
`locator.fill('')`. -/
def InputComponent.clear (c : InputComponent) : MethodResult InputComponent :=
  match throwIfDisabled c.enabled c.name "clear" with
  | some e => ⟨[], some e, c⟩
  | none => ⟨[.fillSelf ""], none, { c with currentValue := "" }⟩

/-! ## Locator string accessors (`BaseComponent` in InputComponent.ts) -/

/-- JavaScript truthiness of the `_locatorString` field: `undefined` and
`""` are falsy. -/
def optionStrTruthy : Option String → Bool
  | some s => s != ""
  | none => false

/-- The `locatorString` setter (BaseComponent, lines 188-205 of the source
file): reject non-strings, then empty or whitespace-only strings, then any
set when a truthy value is already stored; otherwise store the value. -/
def setLocatorString (componentName : String) (stored : Option String)
    (value : JsValue) : Option String × Option PWError :=
  match value with
  | .str v =>
    if v == "" || jsTrim v == "" then
      (stored, some (.invalidLocator v
        "Locator string cannot be empty or contain only whitespace."))
    else if optionStrTruthy stored then
      (stored, some (.locatorImmutability componentName (stored.getD "") v))
    else (some v, none)
  | other =>
    (stored, some (.invalidLocator other.display
      "Locator string must be a string value."))

/-- The `locatorString` getter (BaseComponent, lines 213-218): fail with
`EmptyPropertyError` when no truthy value is stored. -/
def getLocatorString (componentName : String) (stored : Option String) :
    Except PWError String :=
  if optionStrTruthy stored then .ok (stored.getD "")
  else .error (.emptyProperty "locatorString" componentName)

example : toLowerSnakeCase "Option One" = "option_one" := by decide
example : toLowerSnakeCase "alreadySnake" = "already_snake" := by decide
example : toLowerSnakeCase "already_snake_case" = "already_snake_case" := by decide
example : toLowerSnakeCase "My Test String" = "my_test_string" := by decide
example : cleanUrl "https\\x3a//example.com" = "https://example.com" := by decide
example : cleanUrl "" = "" := by decide

/-! ## Fixtures and derived notions used in the statements -/

/-- The options mapping `selectValue` acts on: the first component of
`getOptions` (the cached record on a hit, the freshly computed one on a
miss). -/
def resolvedOptions (c : SelectComponent) : RecordSS :=
  c.getOptions.1

/-- Every display text stored in the record survives trimming; this holds
for every record `getOptions` can produce, because the enumeration skips
options with whitespace-only text. -/
def goodRecord (r : RecordSS) : Prop :=
  ∀ p ∈ r, jsTrim p.2 ≠ ""

/-- A representative select component: a placeholder option (skipped), then
two real options, freshly constructed (no cache), enabled. -/
def sampleSelect : SelectComponent :=
  ⟨"SelectComponent",
    [⟨"", "Select..."⟩, ⟨"Option One", "Option One"⟩, ⟨"optionTwo", "Option Two"⟩],
    "", true, none⟩

/-- The Option Set `getOptions` produces for `sampleSelect`: the
placeholder is skipped, the remaining values are normalized. -/
def sampleOptions : RecordSS :=
  [("option_one", "Option One"), ("option_two", "Option Two")]

/-- The sample select component with `enabled := false`. -/
def sampleSelectDisabled : SelectComponent :=
  { sampleSelect with enabled := false }

/-- A representative disabled input component. -/
def sampleInputDisabled : InputComponent :=
  ⟨"InputComponent", "old", false⟩

/-- A select whose option values normalize to canonical array-index keys,
populated in the order `"2"`, `"1"`: `Object.keys` reorders them
numerically to `["1", "2"]`, diverging from insertion order. -/
def numericSelect : SelectComponent :=
  ⟨"SelectComponent", [⟨"2", "Two"⟩, ⟨"1", "One"⟩], "", true, none⟩

/-! ## Helper lemmas -/

theorem getOptions_char (c : SelectComponent) :
    c.getOptions = (resolvedOptions c, none, { c with optionsCache := some (resolvedOptions c) }) := by
  rcases c with ⟨n, d, iv, en, cache⟩
  cases cache <;> simp [resolvedOptions, SelectComponent.getOptions]

theorem mem_of_recordGet {r : RecordSS} {k t : String}
    (h : recordGet r k = some t) : (k, t) ∈ r := by
  induction r with
  | nil => simp [recordGet] at h
  | cons p r ih =>
    by_cases hk : p.1 = k
    · rw [recordGet, List.find?_cons_of_pos _ (by simpa using hk)] at h
      simp only [Option.map_some', Option.some.injEq] at h
      exact List.mem_cons.mpr (Or.inl (Prod.ext hk h).symm)
    · rw [recordGet, List.find?_cons_of_neg _ (by simpa using hk)] at h
      exact List.mem_cons_of_mem _ (ih h)

theorem insertByValue_perm (k : String) (l : List String) :
    (insertByValue k l).Perm (k :: l) := by
  induction l with
  | nil => exact List.Perm.refl _
  | cons a l ih =>
    unfold insertByValue
    split
    · exact List.Perm.refl _
    · exact (List.Perm.cons a ih).trans (List.Perm.swap k a l)

theorem sortByValue_perm (l : List String) : (sortByValue l).Perm l := by
  induction l with
  | nil => exact List.Perm.refl _
  | cons a l ih =>
    exact (insertByValue_perm a (sortByValue l)).trans (List.Perm.cons a ih)

theorem objectKeys_perm (r : RecordSS) : (objectKeys r).Perm (r.map Prod.fst) := by
  unfold objectKeys
  exact ((sortByValue_perm _).append (List.Perm.refl _)).trans
    (List.filter_append_perm _ _)

theorem objectKeys_length (r : RecordSS) : (objectKeys r).length = r.length := by
  rw [(objectKeys_perm r).length_eq, List.length_map]

theorem goodRecord_recordSet {r : RecordSS} (h : goodRecord r) {k v : String}
    (hv : jsTrim v ≠ "") : goodRecord (recordSet r k v) := by
  intro p hp
  unfold recordSet at hp
  split at hp
  · obtain ⟨q, hq, rfl⟩ := List.mem_map.mp hp
    split
    · simpa using hv
    · exact h q hq
  · rcases List.mem_append.mp hp with h1 | h1
    · exact h p h1
    · simp only [List.mem_singleton] at h1
      subst h1
      simpa using hv

theorem goodRecord_computeOptions (dom : List OptionElement) :
    goodRecord (computeOptions dom) := by
  suffices H : ∀ (l : List OptionElement) (acc : RecordSS), goodRecord acc →
      goodRecord (l.foldl
        (fun options o =>
          if jsTrim o.value != "" && jsTrim o.text != "" then
            recordSet options (toLowerSnakeCase o.value) o.text
          else options) acc) by
    exact H dom [] (by intro p hp; simp at hp)
  intro l
  induction l with
  | nil => intro acc h; exact h
  | cons o l ih =>
    intro acc h
    simp only [List.foldl_cons]
    split
    · next hcond =>
      exact ih _ (goodRecord_recordSet h (by simpa using (Bool.and_elim_right hcond)))
    · exact ih _ h

/-! ## Claim theorems -/

/-- C4: the option-key normalization `toLowerSnakeCase` is total and
deterministic by construction (it is a computable function on all of
`String`), and maps the four specified inputs to the specified snake_case
outputs. -/
theorem toLowerSnakeCase_spec :
    (∀ s : String, ∃ r : String, toLowerSnakeCase s = r) ∧
    toLowerSnakeCase "Option One" = "option_one" ∧
    toLowerSnakeCase "alreadySnake" = "already_snake" ∧
    toLowerSnakeCase "already_snake_case" = "already_snake_case" ∧
    toLowerSnakeCase "My Test String" = "my_test_string" :=
  ⟨fun s => ⟨toLowerSnakeCase s, rfl⟩, by decide, by decide, by decide, by decide⟩

/-- C7: on a disabled component every mutating call — `fill`, `clear`,
`selectValue` — throws a `ComponentDisabledError` carrying the component
name and the attempted action, performs no interaction with the element
reference (empty trace: no fill, no click), and leaves the state unchanged
(in particular no option enumeration populates the cache). -/
theorem disabled_component_guards (ic : InputComponent) (sc : SelectComponent)
    (v : JsValue) (val : String) (rnd : Nat)
    (hic : ic.enabled = false) (hsc : sc.enabled = false) :
    ic.fill val = ⟨[], some (.componentDisabled ic.name "fill"), ic⟩ ∧
    ic.clear = ⟨[], some (.componentDisabled ic.name "clear"), ic⟩ ∧
    sc.selectValue v rnd = ⟨[], some (.componentDisabled sc.name "selectValue"), sc⟩ := by
  refine ⟨?_, ?_, ?_⟩ <;>
    simp [InputComponent.fill, InputComponent.clear, SelectComponent.selectValue,
      throwIfDisabled, hic, hsc]

/-- Witness for C7 at a concrete disabled input and select component. -/
theorem disabled_component_guards_witness :
    sampleInputDisabled.fill "x" =
      ⟨[], some (.componentDisabled "InputComponent" "fill"), sampleInputDisabled⟩ ∧
    sampleInputDisabled.clear =
      ⟨[], some (.componentDisabled "InputComponent" "clear"), sampleInputDisabled⟩ ∧
    sampleSelectDisabled.selectValue (.str "option_one") 0 =
      ⟨[], some (.componentDisabled "SelectComponent" "selectValue"), sampleSelectDisabled⟩ := by
  have h := disabled_component_guards sampleInputDisabled sampleSelectDisabled
    (.str "option_one") "x" 0 (by decide) (by decide)
  exact ⟨h.1, h.2.1, h.2.2⟩

/-- C10: the `enabled` flag guards only mutations.  With `enabled = false`,
`getOptions` still resolves (enumerating, filtering and caching on a miss)
and throws nothing — in particular no `ComponentDisabledError` — and
`getSelectedValue` still returns the current raw input value and throws
nothing. -/
theorem read_ops_ignore_disabled (c : SelectComponent) (_hdis : c.enabled = false) :
    c.getOptions.2.1 = none ∧
    c.getOptions = (resolvedOptions c, none, { c with optionsCache := some (resolvedOptions c) }) ∧
    (c.optionsCache = none → resolvedOptions c = computeOptions c.dom) ∧
    c.getSelectedValue = (c.inputValue, none) := by
  refine ⟨by rw [getOptions_char], getOptions_char c, ?_, rfl⟩
  intro h
  simp [resolvedOptions, SelectComponent.getOptions, h]

/-- Witness for C10 at a concrete disabled select component. -/
theorem read_ops_ignore_disabled_witness :
    sampleSelectDisabled.getOptions.2.1 = none ∧
    resolvedOptions sampleSelectDisabled =
      [("option_one", "Option One"), ("option_two", "Option Two")] ∧
    sampleSelectDisabled.getSelectedValue = ("", none) := by
  have h := read_ops_ignore_disabled sampleSelectDisabled (by decide)
  exact ⟨h.1, by decide, h.2.2.2⟩

/-- C8: the debug label (`locatorString`) is one-time settable.  A first set
with a valid value stores it; once a truthy value is stored, any later set
with a differing valid value fails with `LocatorImmutabilityError` and
leaves the stored value unchanged; a get before any successful set fails
with `EmptyPropertyError`; a set with a non-string value, or with an empty
or whitespace-only string, fails with `InvalidLocatorError`. -/
theorem locatorString_once_settable :
    (∀ (name v : String), jsTrim v ≠ "" →
      setLocatorString name none (.str v) = (some v, none)) ∧
    (∀ (name cur v : String), cur ≠ "" → jsTrim v ≠ "" → v ≠ cur →
      setLocatorString name (some cur) (.str v) =
        (some cur, some (.locatorImmutability name cur v))) ∧
    (∀ name : String,
      getLocatorString name none = .error (.emptyProperty "locatorString" name)) ∧
    (∀ (name : String) (stored : Option String) (v : JsValue), (∀ s, v ≠ .str s) →
      setLocatorString name stored v =
        (stored, some (.invalidLocator v.display "Locator string must be a string value."))) ∧
    (∀ (name s : String) (stored : Option String), jsTrim s = "" →
      setLocatorString name stored (.str s) =
        (stored, some (.invalidLocator s
          "Locator string cannot be empty or contain only whitespace."))) := by
  refine ⟨?_, ?_, ?_, ?_, ?_⟩
  · intro name v hv
    have hv' : v ≠ "" := by
      intro h
      subst h
      exact hv rfl
    simp [setLocatorString, optionStrTruthy, hv, hv']
  · intro name cur v hcur hv _
    have hv' : v ≠ "" := by
      intro h
      subst h
      exact hv rfl
    simp [setLocatorString, optionStrTruthy, hcur, hv, hv']
  · intro name
    simp [getLocatorString, optionStrTruthy]
  · intro name stored v hv
    cases v
    case str s => exact absurd rfl (hv s)
    all_goals simp [setLocatorString]
  · intro name s stored hs
    simp [setLocatorString, hs]

/-- Witness for C8 at concrete labels: a successful first set, a rejected
second set, a get before any set, a non-string set, a whitespace set. -/
theorem locatorString_once_settable_witness :
    setLocatorString "C" none (.str "x") = (some "x", none) ∧
    setLocatorString "C" (some "x") (.str "y") =
      (some "x", some (.locatorImmutability "C" "x" "y")) ∧
    getLocatorString "C" none = .error (.emptyProperty "locatorString" "C") ∧
    setLocatorString "C" (some "x") (.num (.int 3)) =
      (some "x", some (.invalidLocator "3" "Locator string must be a string value.")) ∧
    setLocatorString "C" (some "x") (.str " ") =
      (some "x", some (.invalidLocator " "
        "Locator string cannot be empty or contain only whitespace.")) := by
  refine ⟨locatorString_once_settable.1 "C" "x" (by decide),
    locatorString_once_settable.2.1 "C" "x" "y" (by decide) (by decide) (by decide),
    locatorString_once_settable.2.2.1 "C",
    ?_,
    locatorString_once_settable.2.2.2.2 "C" " " (some "x") (by decide)⟩
  have h := locatorString_once_settable.2.2.2.1 "C" (some "x") (.num (.int 3))
    (by intro s h; cases h)
  exact h

/-- C2 counterexample: a select populated with option values `"2"`, `"1"`
(in that document order) has its Option Set populated as
`[("2","Two"), ("1","One")]`, but `Object.keys` lists the canonical
array-index keys numerically first, giving `["1", "2"]` — so
`selectValue(0)` clicks `One`, the text of the numerically-first key, and
not `Two`, the text of the first-populated key that the claim's
"order the Option Set was populated" requires. -/
theorem selectValue_by_index_counterexample :
    (resolvedOptions numericSelect).map Prod.fst = ["2", "1"] ∧
    objectKeys (resolvedOptions numericSelect) = ["1", "2"] ∧
    (numericSelect.selectValue (.num (.int 0)) 0).error = none ∧
    (numericSelect.selectValue (.num (.int 0)) 0).trace =
      [Interaction.clickSelf, Interaction.clickOptionWithText "One"] := by
  decide

/-- C2 (amended): on an enabled select with `n > 0` options, `selectValue`
with an integer index in `[0, n-1]` selects the key at that position of
the `Object.keys` enumeration (canonical array-index keys in ascending
numeric order first, then the remaining keys in insertion order — which
coincides with the populated order, document order minus skipped empty
options, whenever no key is a canonical array index) and clicks its
display text; an index `< 0` or `>= n` throws the `SelectionError` built
by `indexOutOfRange`, whose details cite the range `0-(n-1)`. -/
theorem selectValue_by_index (c : SelectComponent) (i : Int) (rnd : Nat)
    (hen : c.enabled = true)
    (hro : resolvedOptions c = computeOptions c.dom)
    (hne : resolvedOptions c ≠ []) :
    (∀ t, 0 ≤ i → i < ((objectKeys (resolvedOptions c)).length : Int) →
        recordGet (resolvedOptions c) ((objectKeys (resolvedOptions c)).getD i.toNat "") = some t →
        c.selectValue (.num (.int i)) rnd =
          ⟨[.clickSelf, .clickOptionWithText t], none,
            { c with optionsCache := some (resolvedOptions c) }⟩) ∧
    (i < 0 ∨ ((objectKeys (resolvedOptions c)).length : Int) ≤ i →
        c.selectValue (.num (.int i)) rnd =
          ⟨[.clickSelf],
            some (SelectionError.indexOutOfRange c.name (.int i)
              (((objectKeys (resolvedOptions c)).length : Int) - 1)),
            { c with optionsCache := some (resolvedOptions c) }⟩) := by
  have hgood : goodRecord (resolvedOptions c) := hro ▸ goodRecord_computeOptions c.dom
  have hlen : (objectKeys (resolvedOptions c)).length ≠ 0 := by
    rw [objectKeys_length]
    simpa [List.length_eq_zero] using hne
  constructor
  · intro t h0 h1 ht
    have htne : t ≠ "" := by
      intro h
      subst h
      exact hgood _ (mem_of_recordGet ht) rfl
    have hc0 : ¬(i < 0) := not_lt.mpr h0
    have hc1 : ¬(((objectKeys (resolvedOptions c)).length : Int) ≤ i) := not_le.mpr h1
    have hlt : i.toNat < (objectKeys (resolvedOptions c)).length := by omega
    have hjs : jsIndex (objectKeys (resolvedOptions c)) (.int i) =
        some ((objectKeys (resolvedOptions c)).getD i.toNat "") := by
      simp [jsIndex, hc0, List.getD_eq_getElem?_getD, List.getElem?_eq_getElem hlt]
    have ht' : recordGet (resolvedOptions c)
        ((objectKeys (resolvedOptions c))[i.toNat]?.getD "") = some t := by
      simpa [List.getD_eq_getElem?_getD] using ht
    simp [SelectComponent.selectValue, throwIfDisabled, hen, getOptions_char, hlen,
      resolveTargetKey, JsNumber.ltZero, JsNumber.geInt, hc0, hc1, hjs,
      jsEntriesFind, ht, ht', htne]
  · intro hor
    rcases hor with h | h
    · simp [SelectComponent.selectValue, throwIfDisabled, hen, getOptions_char, hlen,
        resolveTargetKey, JsNumber.ltZero, JsNumber.geInt, h]
    · simp [SelectComponent.selectValue, throwIfDisabled, hen, getOptions_char, hlen,
        resolveTargetKey, JsNumber.ltZero, JsNumber.geInt, h]

/-- Witness for the amended C2 on the sample select (whose keys are not
array indices, so `Object.keys` order is insertion order): index 1
selects the second key `option_two` and clicks `Option Two`; index 5
throws the out-of-range selection error citing `0-1`. -/
theorem selectValue_by_index_witness :
    sampleSelect.selectValue (.num (.int 1)) 0 =
      ⟨[.clickSelf, .clickOptionWithText "Option Two"], none,
        { sampleSelect with optionsCache := some sampleOptions }⟩ ∧
    sampleSelect.selectValue (.num (.int 5)) 0 =
      ⟨[.clickSelf],
        some (SelectionError.indexOutOfRange "SelectComponent" (.int 5) 1),
        { sampleSelect with optionsCache := some sampleOptions }⟩ := by
  have h1 := (selectValue_by_index sampleSelect 1 0 rfl rfl (by decide)).1
    "Option Two" (by decide) (by decide) (by decide)
  have h2 := (selectValue_by_index sampleSelect 5 0 rfl rfl (by decide)).2
    (Or.inr (by decide))
  exact ⟨by rw [h1]; decide, by rw [h2]; decide⟩

/-- C5 counterexample: `null` is not `undefined`, and `typeof null` is
neither `"string"` nor `"number"`, yet `selectValue(null)` on an enabled
select with a non-empty Option Set does not throw at all — it performs a
random selection (here clicking `Option One`) — contradicting the claim
that every such argument throws an invalid-value-type `SelectionError`. -/
theorem selectValue_null_counterexample :
    JsValue.null ≠ JsValue.undef ∧
    JsValue.null.typeOf = "object" ∧
    (sampleSelect.selectValue JsValue.null 0).error = none ∧
    (sampleSelect.selectValue JsValue.null 0).trace =
      [Interaction.clickSelf, Interaction.clickOptionWithText "Option One"] := by
  decide

/-- C5 (amended): on an enabled select with a non-empty Option Set,
`selectValue` with an argument that is not `undefined`, **not `null`**, not
a string and not a number throws the `SelectionError` built by
`invalidValueType`, citing the received `typeof` name (`null`, like
`undefined`, triggers random selection instead). -/
theorem selectValue_invalid_value_type (c : SelectComponent) (v : JsValue) (rnd : Nat)
    (hen : c.enabled = true)
    (hne : resolvedOptions c ≠ [])
    (hundef : v ≠ .undef) (hnull : v ≠ .null)
    (hstr : ∀ s, v ≠ .str s) (hnum : ∀ n, v ≠ .num n) :
    c.selectValue v rnd =
      ⟨[.clickSelf],
        some (SelectionError.invalidValueType c.name v.typeOf),
        { c with optionsCache := some (resolvedOptions c) }⟩ := by
  have hlen : (objectKeys (resolvedOptions c)).length ≠ 0 := by
    rw [objectKeys_length]
    simpa [List.length_eq_zero] using hne
  cases v with
  | undef => exact absurd rfl hundef
  | null => exact absurd rfl hnull
  | str s => exact absurd rfl (hstr s)
  | num n => exact absurd rfl (hnum n)
  | bool b =>
    simp [SelectComponent.selectValue, throwIfDisabled, hen, getOptions_char, hlen,
      resolveTargetKey, JsValue.typeOf]
  | object =>
    simp [SelectComponent.selectValue, throwIfDisabled, hen, getOptions_char, hlen,
      resolveTargetKey, JsValue.typeOf]

/-- Witness for the amended C5: a boolean argument throws the
invalid-value-type selection error citing `boolean`. -/
theorem selectValue_invalid_value_type_witness :
    sampleSelect.selectValue (.bool true) 0 =
      ⟨[.clickSelf],
        some (SelectionError.invalidValueType "SelectComponent" "boolean"),
        { sampleSelect with optionsCache := some sampleOptions }⟩ := by
  have h := selectValue_invalid_value_type sampleSelect (.bool true) 0 rfl (by decide)
    (by intro h; cases h) (by intro h; cases h)
    (by intro s h; cases h) (by intro n h; cases h)
  rw [h]
  decide

/-- C3: `getOptions` excludes every option whose raw value or text is empty
or whitespace-only (pre-filtering the enumerated option elements by that
predicate does not change the computed mapping), and is idempotent: after
one call, a second call returns the identical cached mapping and state,
and does not re-enumerate the option elements (with the cache populated,
the result is independent of the DOM option list). -/
theorem getOptions_filter_idempotent :
    (∀ dom : List OptionElement,
        computeOptions (dom.filter (fun o => jsTrim o.value != "" && jsTrim o.text != "")) =
          computeOptions dom) ∧
    (∀ c : SelectComponent,
        SelectComponent.getOptions c.getOptions.2.2 = (c.getOptions.1, none, c.getOptions.2.2)) ∧
    (∀ (c : SelectComponent) (d : List OptionElement),
        SelectComponent.getOptions { c.getOptions.2.2 with dom := d } =
          (c.getOptions.1, none, { c.getOptions.2.2 with dom := d })) := by
  refine ⟨?_, ?_, ?_⟩
  · intro dom
    unfold computeOptions
    generalize ([] : RecordSS) = acc
    induction dom generalizing acc with
    | nil => rfl
    | cons o dom ih =>
      simp only [List.filter_cons, List.foldl_cons]
      by_cases ho : (jsTrim o.value != "" && jsTrim o.text != "") = true
      · rw [if_pos ho, List.foldl_cons, if_pos ho]
        exact ih _
      · rw [if_neg ho, if_neg ho]
        exact ih _
  · intro c
    rw [getOptions_char c]
    simp [SelectComponent.getOptions]
  · intro c d
    rw [getOptions_char c]
    simp [SelectComponent.getOptions]

theorem startsWithX3a_true_iff (l : List Char) :
    startsWithX3a l = true ↔ ∃ t, l = '\\' :: 'x' :: '3' :: 'a' :: t := by
  unfold startsWithX3a
  split
  · rename_i t
    simp
  · rename_i hno
    simp only [Bool.false_eq_true, false_iff]
    rintro ⟨t, rfl⟩
    exact hno t rfl

theorem replaceX3a_pat (t : List Char) :
    replaceX3a ('\\' :: 'x' :: '3' :: 'a' :: t) = ':' :: replaceX3a t := rfl

theorem replaceX3a_cons_of_not {c : Char} {m : List Char}
    (h : startsWithX3a (c :: m) = false) :
    replaceX3a (c :: m) = c :: replaceX3a m := by
  conv_lhs => unfold replaceX3a
  split
  · rename_i heq
    rw [heq] at h
    simp [startsWithX3a] at h
  · rename_i heq
    injection heq with h1 h2
    subst h1
    subst h2
    rfl
  · rename_i heq
    simp at heq

theorem startsWithX3a_false_of_head {c : Char} (hc : c ≠ '\\') (m : List Char) :
    startsWithX3a (c :: m) = false := by
  rw [Bool.eq_false_iff, Ne, startsWithX3a_true_iff]
  rintro ⟨t, hEq⟩
  injection hEq with h1 _
  exact hc h1

theorem replaceX3a_head (c : Char) (l : List Char) :
    (∃ t, replaceX3a (c :: l) = ':' :: t) ∨ (∃ t, replaceX3a (c :: l) = c :: t) := by
  by_cases h : startsWithX3a (c :: l) = true
  · obtain ⟨t, ht⟩ := (startsWithX3a_true_iff _).mp h
    left
    refine ⟨replaceX3a t, ?_⟩
    rw [ht, replaceX3a_pat]
  · right
    exact ⟨replaceX3a l, replaceX3a_cons_of_not (Bool.eq_false_iff.mpr h)⟩

theorem startsWithX3a_propagate {c : Char} {l : List Char}
    (h : startsWithX3a (c :: l) = false) :
    startsWithX3a (c :: replaceX3a l) = false := by
  have h' : ¬ ∃ t, c :: l = '\\' :: 'x' :: '3' :: 'a' :: t := by
    rw [← startsWithX3a_true_iff, h]
    simp
  rw [Bool.eq_false_iff, Ne, startsWithX3a_true_iff]
  rintro ⟨t, hEq⟩
  injection hEq with h1 h2
  subst h1
  have hl : ¬ ∃ t, l = 'x' :: '3' :: 'a' :: t := by
    rintro ⟨t, rfl⟩
    exact h' ⟨t, rfl⟩
  rcases l with _ | ⟨d, r⟩
  · cases h2
  · by_cases hd : d = 'x'
    · subst hd
      have hl2 : ¬ ∃ t, r = '3' :: 'a' :: t := by
        rintro ⟨t, rfl⟩
        exact hl ⟨t, rfl⟩
      rw [replaceX3a_cons_of_not (startsWithX3a_false_of_head (by decide) r)] at h2
      injection h2 with _ h3
      rcases r with _ | ⟨e, r2⟩
      · cases h3
      · by_cases he : e = '3'
        · subst he
          have hl3 : ¬ ∃ t, r2 = 'a' :: t := by
            rintro ⟨t, rfl⟩
            exact hl2 ⟨t, rfl⟩
          rw [replaceX3a_cons_of_not (startsWithX3a_false_of_head (by decide) r2)] at h3
          injection h3 with _ h4
          rcases r2 with _ | ⟨f, r3⟩
          · cases h4
          · have hf : f ≠ 'a' := by
              intro hfa
              subst hfa
              exact hl3 ⟨r3, rfl⟩
            rcases replaceX3a_head f r3 with ⟨t', ht'⟩ | ⟨t', ht'⟩ <;> rw [ht'] at h4
            · cases h4
            · injection h4 with h5 _
              exact hf h5
        · rcases replaceX3a_head e r2 with ⟨t', ht'⟩ | ⟨t', ht'⟩ <;> rw [ht'] at h3
          · cases h3
          · injection h3 with h5 _
            exact he h5
    · rcases replaceX3a_head d r with ⟨t', ht'⟩ | ⟨t', ht'⟩ <;> rw [ht'] at h2
      · cases h2
      · injection h2 with h5 _
        exact hd h5

theorem hasX3a_replaceX3a (l : List Char) : hasX3a (replaceX3a l) = false := by
  have H : ∀ n (l : List Char), l.length ≤ n → hasX3a (replaceX3a l) = false := by
    intro n
    induction n with
    | zero =>
      intro l hl
      have hnil : l = [] := List.length_eq_zero.mp (Nat.le_zero.mp hl)
      subst hnil
      rfl
    | succ n ih =>
      intro l hl
      rcases l with _ | ⟨c, m⟩
      · rfl
      · by_cases hpat : startsWithX3a (c :: m) = true
        · obtain ⟨t, ht⟩ := (startsWithX3a_true_iff _).mp hpat
          rw [ht, replaceX3a_pat]
          have hlen : t.length ≤ n := by
            have hlt := congrArg List.length ht
            simp only [List.length_cons] at hlt hl
            omega
          have h1 : startsWithX3a (':' :: replaceX3a t) = false :=
            startsWithX3a_false_of_head (by decide) _
          have h2 := ih t hlen
          simp [hasX3a, h1, h2]
        · have hfalse : startsWithX3a (c :: m) = false := Bool.eq_false_iff.mpr hpat
          rw [replaceX3a_cons_of_not hfalse]
          have h1 := startsWithX3a_propagate hfalse
          have h2 := ih m (by simp only [List.length_cons] at hl; omega)
          simp [hasX3a, h1, h2]
  exact H l.length l le_rfl

/-- C9: `cleanUrl` decodes every literal `\x3a` escape sequence in its
input to `:` — the result of the global replacement contains no remaining
occurrence of the four-character sequence — and returns the empty string
on the empty (falsy) input; in particular it maps `https\x3a//example.com`
to `https://example.com` and the empty string to itself. -/
theorem cleanUrl_spec :
    (∀ l : List Char, hasX3a (replaceX3a l) = false) ∧
    cleanUrl "https\\x3a//example.com" = "https://example.com" ∧
    cleanUrl "" = "" :=
  ⟨hasX3a_replaceX3a, by decide, rfl⟩
